import Mathlib

/-!
Verification of the TinyLoRa LoRaWAN uplink core
(`src/lib/adafruit_tinylora/adafruit_tinylora.py`) against its
natural-language specification.

The driver code is embedded shallowly: bytes are `Nat` (with explicit
masking where the source masks), byte buffers are `List Nat`, Python
slice assignment is modelled explicitly, and the SPI register writes of
`send_packet` are recorded as an explicit trace of `(address, value)`
pairs.  The AES primitives live in `adafruit_tinylora_encryption.py`,
which is not part of the sources here; they are modelled from the
specification with the AES block permutation (and the CMAC used for the
MIC) abstracted as function parameters.
-/

namespace TinyLora

/-! ## Register and mode constants (from the source header) -/

def MODE_SLEEP : Nat := 0x00
def MODE_STDBY : Nat := 0x01
def MODE_TX : Nat := 0x83
def REG_OPERATING_MODE : Nat := 0x01
def REG_FRF_MSB : Nat := 0x06
def REG_FRF_MID : Nat := 0x07
def REG_FRF_LSB : Nat := 0x08
def REG_FEI_LSB : Nat := 0x1E
def REG_FEI_MSB : Nat := 0x1D
def REG_MODEM_CONFIG : Nat := 0x26
def REG_PAYLOAD_LENGTH : Nat := 0x22
def REG_FIFO_POINTER : Nat := 0x0D
def REG_FIFO_BASE_ADDR : Nat := 0x80
def REG_DIO_MAPPING_1 : Nat := 0x40

/-! ## Python buffer operations -/

/-- Python slice read `b[i:j]` for `0 ≤ i ≤ j` (indices clamped to the
buffer length, as in Python). -/
def listSlice (b : List Nat) (i j : Nat) : List Nat :=
  (b.take j).drop i

/-- Python slice assignment `b[i:j] = xs` for `0 ≤ i ≤ j`: the slice is
removed and `xs` spliced in, so the buffer may grow or shrink (indices
clamped to the buffer length, as in Python). -/
def sliceAssign (b : List Nat) (i j : Nat) (xs : List Nat) : List Nat :=
  b.take i ++ xs ++ b.drop j

/-! ## Keystream cipher

Modelled from the spec: `adafruit_tinylora_encryption.py` (class `AES`)
is not among the sources.  Per spec §4.1, for each 16-byte block index
`i` an input block `A_i` is built from a fixed tag byte, the uplink
direction flag `0`, the device address, the frame counter as a 32-bit
value with the upper 16 bits zero, and the block index; `A_i` is run
through the AES block cipher under the application key to obtain the
keystream block, and the ciphertext is the byte-wise exclusive-or of
plaintext and keystream, truncated to the plaintext length.  The AES
block permutation (already keyed with the application key) is abstracted
as the function parameter `cipher`. -/

/-- Modelled from the spec: the 16-byte keystream input block `A_i`
(tag byte, zero padding, direction flag 0 = uplink, 4-byte device
address, frame counter as 32-bit little-endian with upper 16 bits zero,
block index). -/
def aBlock (devAddr : List Nat) (frameCounter blockIndex : Nat) : List Nat :=
  [0x01, 0x00, 0x00, 0x00, 0x00, 0x00] ++ devAddr ++
    [frameCounter &&& 0xFF, (frameCounter >>> 8) &&& 0xFF, 0x00, 0x00] ++
    [0x00, blockIndex]

/-- Modelled from the spec: byte `j` of the keystream is byte `j % 16`
of the cipher applied to input block `A_(j / 16)`. -/
def keystreamByte (cipher : List Nat → List Nat) (devAddr : List Nat)
    (frameCounter j : Nat) : Nat :=
  (cipher (aBlock devAddr frameCounter (j / 16))).getD (j % 16) 0

/-- Modelled from the spec: exclusive-or of the plaintext with the
keystream, starting at keystream byte `j`. -/
def ksEncryptFrom (cipher : List Nat → List Nat) (devAddr : List Nat)
    (frameCounter : Nat) : List Nat → Nat → List Nat
  | [], _ => []
  | b :: rest, j =>
      (b ^^^ keystreamByte cipher devAddr frameCounter j) ::
        ksEncryptFrom cipher devAddr frameCounter rest (j + 1)

/-- Modelled from the spec: `AES.encrypt` — keystream encryption of a
plaintext of any length (the same operation decrypts). -/
def ksEncrypt (cipher : List Nat → List Nat) (devAddr : List Nat)
    (frameCounter : Nat) (pt : List Nat) : List Nat :=
  ksEncryptFrom cipher devAddr frameCounter pt 0

/-! ## Message-integrity code -/

/-- Modelled from the spec: the leading 16-byte block `B0` of the MIC
computation (fixed tag, direction flag 0 = uplink, device address,
frame counter, message length). -/
def b0Block (devAddr : List Nat) (frameCounter msgLen : Nat) : List Nat :=
  [0x49, 0x00, 0x00, 0x00, 0x00, 0x00] ++ devAddr ++
    [frameCounter &&& 0xFF, (frameCounter >>> 8) &&& 0xFF, 0x00, 0x00] ++
    [0x00, msgLen &&& 0xFF]

/-- Modelled from the spec: `AES.calculate_mic` — a CMAC-family
authentication code over `B0` concatenated with the first `len` message
bytes, under the network key; the first 4 bytes are the MIC.  The keyed
CMAC itself is abstracted as the function parameter `cmac`. -/
def calculateMic (cmac : List Nat → List Nat) (devAddr : List Nat)
    (frameCounter : Nat) (msg : List Nat) (len : Nat) : List Nat :=
  (cmac (b0Block devAddr frameCounter len ++ msg.take len)).take 4

/-! ## Frame assembly (`TinyLoRa.send_data`) -/

/-- The first nine bytes written into `lora_pkt` by `send_data`
(`lora_pkt[0] = const(_REG_DIO_MAPPING_1)` i.e. `0x40`, the device
address bytes in reversed order, the zero frame-control byte, the
frame-counter low and high bytes, and the fixed port byte `0x01`). -/
def loraPktHeader (devAddr : List Nat) (frameCounter : Nat) : List Nat :=
  [0x40,
   devAddr.getD 3 0, devAddr.getD 2 0, devAddr.getD 1 0, devAddr.getD 0 0,
   0x00,
   frameCounter &&& 0x00FF, (frameCounter >>> 8) &&& 0x00FF,
   0x01]

/-- Result of `send_data`: the final packet buffer and length, the
frame actually handed to `send_packet` (its first `lora_pkt_len` bytes,
which is exactly what `send_packet` loads into the FIFO), the object's
`self.frame_counter` after the call, and the caller's `data` buffer
after the call. -/
structure SendDataResult where
  lora_pkt : List Nat
  lora_pkt_len : Nat
  frame : List Nat
  frame_counter_after : Nat
  data_after : List Nat
  deriving Repr, DecidableEq

/-- `TinyLoRa.send_data` (lines 263–309): copy the payload into a fresh
buffer, encrypt it, assemble the 9-byte header into the 64-byte
`lora_pkt` buffer (written here as the 9 header bytes followed by the
remaining 55 zero bytes), splice in the ciphertext and then the first 4
MIC bytes with Python slice assignment, and hand the first
`lora_pkt_len` bytes to `send_packet`.  The caller's `data` buffer is
only read, and `self.frame_counter` is set to the caller's
`frame_counter` argument. -/
def sendData (cipher cmac : List Nat → List Nat) (devAddr : List Nat)
    (data : List Nat) (dataLength frameCounter : Nat) : SendDataResult :=
  let enc0 := sliceAssign (List.replicate dataLength 0) 0 dataLength
    (listSlice data 0 dataLength)
  let enc := ksEncrypt cipher devAddr frameCounter enc0
  let pkt0 := loraPktHeader devAddr frameCounter ++ List.replicate 55 0
  let pkt1 := sliceAssign pkt0 9 (9 + dataLength) (listSlice enc 0 dataLength)
  let len1 := 9 + dataLength
  let mic := calculateMic cmac devAddr frameCounter pkt1 len1
  let pkt2 := sliceAssign pkt1 len1 (len1 + 4) (listSlice mic 0 4)
  let len2 := len1 + 4
  ⟨pkt2, len2, pkt2.take len2, frameCounter, data⟩

/-! ## Transmission (`TinyLoRa.send_packet`) -/

/-- The TxDone poll loop of `send_packet` (lines 347–351): at iteration
`k` the loop condition reads the IRQ pin (`irq k`); if it is low the
body compares elapsed time against the timeout (`elapsed k`), and once
the timeout fires the loop exits at the next condition check without
reading the pin again.  `fuel` bounds the number of iterations modelled;
`none` means the loop did not exit within `fuel` iterations. -/
def pollTxDone (irq elapsed : Nat → Bool) : Nat → Nat → Option Bool
  | 0, _ => none
  | fuel + 1, k =>
      if irq k then some false
      else if elapsed k then some true
      else pollTxDone irq elapsed fuel (k + 1)

/-- The multi-channel frequency selection of `send_packet` (lines
324–328): in fixed-channel mode the current frequency registers are
kept; otherwise `self._frequencies[self._tx_random]` is looked up
(`none` models the out-of-range `IndexError`). -/
def selectChannel (channel : Option Nat) (frequencies : List (Nat × Nat × Nat))
    (current : Nat × Nat × Nat) (txRandom : Nat) : Option (Nat × Nat × Nat) :=
  match channel with
  | some _ => some current
  | none => frequencies.get? txRandom

/-- Result of `send_packet`: the ordered trace of register writes
`(address, value)` made on the bus, and whether the call raised the
timeout error (`raise RuntimeError("Timeout during packet send")`). -/
structure SendPacketResult where
  writes : List (Nat × Nat)
  timedOut : Bool
  deriving Repr, DecidableEq

/-- `TinyLoRa.send_packet` (lines 311–355): standby and DIO-mapping
writes, channel selection, the eight configuration register writes, the
FIFO load of the first `packet_length` packet bytes, the switch to
Transmit, the TxDone poll, the unconditional switch to Sleep, and
finally the timeout error if the poll timed out.  `none` models a call
that does not return normally: an `IndexError` from the channel or
packet indexing, or a poll that does not exit within `fuel`. -/
def sendPacket (channel : Option Nat) (frequencies : List (Nat × Nat × Nat))
    (rfm : Nat × Nat × Nat) (sf bw modemcfg : Nat) (txRandom : Nat)
    (lora_packet : List Nat) (packet_length : Nat)
    (irq elapsed : Nat → Bool) (fuel : Nat) : Option SendPacketResult :=
  match selectChannel channel frequencies rfm txRandom with
  | none => none
  | some (msb, mid, lsb) =>
      if packet_length ≤ lora_packet.length then
        match pollTxDone irq elapsed fuel 0 with
        | none => none
        | some t =>
            some ⟨[(MODE_STDBY, 0x81), (0x40, 0x40),
                   (REG_FRF_MSB, msb), (REG_FRF_MID, mid), (REG_FRF_LSB, lsb),
                   (REG_FEI_LSB, sf), (REG_FEI_MSB, bw),
                   (REG_MODEM_CONFIG, modemcfg),
                   (REG_PAYLOAD_LENGTH, packet_length),
                   (REG_FIFO_POINTER, REG_FIFO_BASE_ADDR)]
                  ++ (lora_packet.take packet_length).map (fun b => (0x00, b))
                  ++ [(REG_OPERATING_MODE, MODE_TX),
                      (REG_OPERATING_MODE, MODE_SLEEP)],
                  t⟩
      else none

/-! ## Data-rate selection (`TinyLoRa.set_datarate`) -/

/-- The static data-rate table of `set_datarate` (lines 362–370). -/
def dataRates : List (String × (Nat × Nat × Nat)) :=
  [("SF7BW125", (0x74, 0x72, 0x04)),
   ("SF7BW250", (0x74, 0x82, 0x04)),
   ("SF8BW125", (0x84, 0x72, 0x04)),
   ("SF9BW125", (0x94, 0x72, 0x04)),
   ("SF10BW125", (0xA4, 0x72, 0x04)),
   ("SF11BW125", (0xB4, 0x72, 0x0C)),
   ("SF12BW125", (0xC4, 0x72, 0x0C))]

/-- Python dict lookup `data_rates[datarate]` (first matching key). -/
def lookupRate : List (String × (Nat × Nat × Nat)) → String →
    Option (Nat × Nat × Nat)
  | [], _ => none
  | (k, v) :: rest, name => if k = name then some v else lookupRate rest name

/-- `TinyLoRa.set_datarate` (lines 357–374): on a known name the three
registers `(self._sf, self._bw, self._modemcfg)` are assigned the
table's triple; an unknown name raises `KeyError` before any assignment,
so the prior triple is kept.  The boolean records whether the error was
raised. -/
def setDatarate (sf bw modemcfg : Nat) (datarate : String) :
    (Nat × Nat × Nat) × Bool :=
  match lookupRate dataRates datarate with
  | some t => (t, false)
  | none => ((sf, bw, modemcfg), true)

/-! ## Region selection (`TinyLoRa.__init__`, lines 188–219) -/

/-- The regional frequency plans selectable at construction. -/
inductive Region where
  | us
  | asRegion
  | au
  | eu
  | cn
  deriving Repr, DecidableEq

/-- The region dispatch of `__init__` (lines 189–210).  Note the first
branch is Python's `"US" in ttn_config.country`: substring containment,
not equality. -/
def selectRegion (country : String) : Option Region :=
  if "US".data <:+: country.data then some Region.us
  else if country = "AS" then some Region.asRegion
  else if country = "AU" then some Region.au
  else if country = "EU" then some Region.eu
  else if country = "CN" then some Region.cn
  else none

/-- The channel and frame state configured by `__init__` after the
region dispatch succeeds (lines 212–219). -/
structure InitState where
  region : Region
  channel : Option Nat
  frame_counter : Nat
  deriving Repr, DecidableEq

/-- The region/channel/frame-counter fragment of `__init__`: an
unsupported region raises before `self._channel` or
`self.frame_counter` is configured, so no state is produced. -/
def ttnInit (country : String) (channel : Option Nat) : Option InitState :=
  (selectRegion country).map (fun r => ⟨r, channel, 0⟩)

/-! ## Bus register protocol (`_read_into` / `_write_u8`) -/

/-- The address byte sent by `_read_into` before reading
(`self._BUFFER[0] = address & 0x7F`, line 396). -/
def readTransactionAddr (address : Nat) : Nat :=
  address &&& 0x7F

/-- The two bytes sent by `_write_u8`
(`self._BUFFER[0] = address | 0x80; self._BUFFER[1] = val`,
lines 413–414). -/
def writeTransaction (address val : Nat) : List Nat :=
  [address ||| 0x80, val]

end TinyLora

namespace TinyLora

/-! ## Keystream lemmas -/

/-- The keystream transform preserves the length of its input. -/
theorem ksEncryptFrom_length (cipher : List Nat → List Nat) (devAddr : List Nat)
    (F : Nat) (pt : List Nat) :
    ∀ j, (ksEncryptFrom cipher devAddr F pt j).length = pt.length := by
  induction pt with
  | nil => intro j; rfl
  | cons b rest ih => intro j; simp [ksEncryptFrom, ih]

/-- `ksEncrypt` preserves the length of its input. -/
theorem ksEncrypt_length (cipher : List Nat → List Nat) (devAddr : List Nat)
    (F : Nat) (pt : List Nat) :
    (ksEncrypt cipher devAddr F pt).length = pt.length :=
  ksEncryptFrom_length cipher devAddr F pt 0

/-- The keystream transform is an involution at any starting offset. -/
theorem ksEncryptFrom_invol (cipher : List Nat → List Nat) (devAddr : List Nat)
    (F : Nat) (pt : List Nat) :
    ∀ j, ksEncryptFrom cipher devAddr F
      (ksEncryptFrom cipher devAddr F pt j) j = pt := by
  induction pt with
  | nil => intro j; rfl
  | cons b rest ih => intro j; simp [ksEncryptFrom, ih, Nat.xor_cancel_right]

end TinyLora

namespace TinyLora

/-- The header list has nine bytes. -/
theorem loraPktHeader_length (devAddr : List Nat) (F : Nat) :
    (loraPktHeader devAddr F).length = 9 := rfl

/-- Canonical form of the frame assembled by `send_data`: the 9-byte
header, then the encrypted payload, then the 4-byte MIC. -/
theorem sendData_frame_eq (cipher cmac : List Nat → List Nat)
    (devAddr data : List Nat) (dataLength F : Nat)
    (hdl : dataLength = data.length) (hc : ∀ m, (cmac m).length = 16) :
    (sendData cipher cmac devAddr data dataLength F).frame =
      loraPktHeader devAddr F ++ ksEncrypt cipher devAddr F data ++
        calculateMic cmac devAddr F
          (loraPktHeader devAddr F ++ ksEncrypt cipher devAddr F data)
          (9 + dataLength) := by
  subst hdl
  set H := loraPktHeader devAddr F with hH
  set E := ksEncrypt cipher devAddr F data with hE
  have hHlen : H.length = 9 := rfl
  have henc0 : sliceAssign (List.replicate data.length 0) 0 data.length
      (listSlice data 0 data.length) = data := by
    simp [sliceAssign, listSlice, List.drop_eq_nil_of_le]
  have hElen : E.length = data.length := ksEncrypt_length cipher devAddr F data
  have hEslice : listSlice E 0 data.length = E := by
    simp [listSlice, List.take_of_length_le (Nat.le_of_eq hElen)]
  have hpkt1 : sliceAssign (H ++ List.replicate 55 0) 9 (9 + data.length) E =
      (H ++ E) ++ (List.replicate 55 0).drop data.length := by
    rw [sliceAssign, List.take_left' hHlen,
      show (9 : Nat) + data.length = H.length + data.length by rw [hHlen],
      List.drop_append, List.append_assoc]
  have hHE : (H ++ E).length = 9 + data.length := by
    rw [List.length_append, hHlen, hElen]
  have htake : ((H ++ E) ++ (List.replicate 55 0).drop data.length).take
      (9 + data.length) = H ++ E := List.take_left' hHE
  have hmic : calculateMic cmac devAddr F
      ((H ++ E) ++ (List.replicate 55 0).drop data.length) (9 + data.length) =
      calculateMic cmac devAddr F (H ++ E) (9 + data.length) := by
    rw [calculateMic, calculateMic, htake,
      List.take_of_length_le (Nat.le_of_eq hHE)]
  have hmiclen : (calculateMic cmac devAddr F (H ++ E)
      (9 + data.length)).length = 4 := by
    simp [calculateMic, hc]
  have hmicslice : listSlice (calculateMic cmac devAddr F (H ++ E)
      (9 + data.length)) 0 4 =
      calculateMic cmac devAddr F (H ++ E) (9 + data.length) := by
    simp [listSlice, List.take_of_length_le (Nat.le_of_eq hmiclen)]
  have hfull : (H ++ E ++ calculateMic cmac devAddr F (H ++ E)
      (9 + data.length)).length = 9 + data.length + 4 := by
    rw [List.length_append, hHE, hmiclen]
  simp only [sendData]
  rw [henc0, ← hE, hEslice, hpkt1, hmic, hmicslice, sliceAssign, htake]
  rw [List.take_left' hfull]

end TinyLora

namespace TinyLora

/-- C2: for every block-cipher instance, device address, frame counter
and plaintext of any length (including zero), keystream encryption is an
involution and returns output of the same length as its input:
`encrypt (encrypt P) = P`. -/
theorem C2_keystream_involution (cipher : List Nat → List Nat)
    (devAddr : List Nat) (F : Nat) (pt : List Nat) :
    ksEncrypt cipher devAddr F (ksEncrypt cipher devAddr F pt) = pt ∧
    (ksEncrypt cipher devAddr F pt).length = pt.length :=
  ⟨ksEncryptFrom_invol cipher devAddr F pt 0,
   ksEncryptFrom_length cipher devAddr F pt 0⟩

/-- Byte 8 of the frame survives all the splices: auxiliary lemma for
the port-byte claim, for a header of length 9. -/
theorem frame_byte8_aux (H e r m : List Nat) (dl : Nat) (hH : H.length = 9)
    (h8 : H.get? 8 = some 1) :
    (List.take (9 + dl + 4) (List.take (9 + dl) (H ++ e ++ r) ++ m ++
      List.drop (9 + dl + 4) (H ++ e ++ r))).get? 8 = some 1 := by
  set P := H ++ e ++ r with hP
  set A := List.take (9 + dl) P with hA
  have hPlen : P.length = 9 + e.length + r.length := by
    rw [hP]; simp only [List.length_append, hH]
  have hAlen : A.length = min (9 + dl) P.length := by
    rw [hA, List.length_take]
  have h3 : 8 < A.length := by rw [hAlen, hPlen]; omega
  have h2 : 8 < (A ++ m).length := by rw [List.length_append]; omega
  have h5 : 8 < (H ++ e).length := by rw [List.length_append, hH]; omega
  have h6 : 8 < H.length := by rw [hH]; omega
  rw [List.get?_take (by omega), List.get?_append h2, List.get?_append h3,
    hA, List.get?_take (by omega), hP, List.get?_append h5,
    List.get?_append h6]
  exact h8

/-- C10: every frame produced by `send_data` carries the fixed port
byte `0x01` at offset 8 — `send_data` exposes no port parameter. -/
theorem C10_port_byte (cipher cmac : List Nat → List Nat)
    (devAddr data : List Nat) (dataLength F : Nat) :
    (sendData cipher cmac devAddr data dataLength F).frame.get? 8 =
      some 0x01 := by
  simp only [sendData, sliceAssign]
  simp only [List.take_left' (loraPktHeader_length devAddr F)]
  exact frame_byte8_aux (loraPktHeader devAddr F) _ _ _ dataLength rfl rfl

/-- C9: `send_data` does not mutate the caller's payload buffer (it is
copied into a fresh buffer before encryption) and only stores the
caller-supplied frame counter, never advancing it. -/
theorem C9_no_caller_mutation (cipher cmac : List Nat → List Nat)
    (devAddr data : List Nat) (dataLength F : Nat) :
    (sendData cipher cmac devAddr data dataLength F).data_after = data ∧
    (sendData cipher cmac devAddr data dataLength F).frame_counter_after =
      F :=
  ⟨rfl, rfl⟩

end TinyLora

namespace TinyLora

/-- C1: for every payload of length `N` and frame counter `F`, the byte
sequence assembled by `send_data` has length `9 + N + 4` and the
wire-exact layout: byte 0 the fixed MAC header tag `0x40`, bytes 1–4
the device address least-significant byte first (the stored address
reversed), byte 5 the zero frame-control byte, bytes 6–7 the frame
counter least-significant byte first, byte 8 the port, bytes
`9..9+N-1` the encrypted payload, and the final 4 bytes the integrity
code. -/
theorem C1_frame_layout (cipher cmac : List Nat → List Nat)
    (devAddr data : List Nat) (dataLength F : Nat)
    (hdl : dataLength = data.length) (ha : devAddr.length = 4)
    (hc : ∀ m, (cmac m).length = 16) :
    (sendData cipher cmac devAddr data dataLength F).lora_pkt_len =
        9 + dataLength + 4 ∧
    (sendData cipher cmac devAddr data dataLength F).frame.length =
        9 + dataLength + 4 ∧
    (sendData cipher cmac devAddr data dataLength F).frame.get? 0 =
        some 0x40 ∧
    (sendData cipher cmac devAddr data dataLength F).frame.get? 1 =
        some (devAddr.getD 3 0) ∧
    (sendData cipher cmac devAddr data dataLength F).frame.get? 2 =
        some (devAddr.getD 2 0) ∧
    (sendData cipher cmac devAddr data dataLength F).frame.get? 3 =
        some (devAddr.getD 1 0) ∧
    (sendData cipher cmac devAddr data dataLength F).frame.get? 4 =
        some (devAddr.getD 0 0) ∧
    (sendData cipher cmac devAddr data dataLength F).frame.get? 5 =
        some 0x00 ∧
    (sendData cipher cmac devAddr data dataLength F).frame.get? 6 =
        some (F &&& 0xFF) ∧
    (sendData cipher cmac devAddr data dataLength F).frame.get? 7 =
        some ((F >>> 8) &&& 0xFF) ∧
    (sendData cipher cmac devAddr data dataLength F).frame.get? 8 =
        some 0x01 ∧
    (∀ j, j < dataLength →
      (sendData cipher cmac devAddr data dataLength F).frame.get? (9 + j) =
        (ksEncrypt cipher devAddr F data).get? j) ∧
    (sendData cipher cmac devAddr data dataLength F).frame.drop
        (9 + dataLength) =
      calculateMic cmac devAddr F
        (loraPktHeader devAddr F ++ ksEncrypt cipher devAddr F data)
        (9 + dataLength) := by
  have hfr := sendData_frame_eq cipher cmac devAddr data dataLength F hdl hc
  set H := loraPktHeader devAddr F with hH
  set E := ksEncrypt cipher devAddr F data with hE
  set M := calculateMic cmac devAddr F (H ++ E) (9 + dataLength) with hM
  have hHlen : H.length = 9 := rfl
  have hElen : E.length = data.length := ksEncrypt_length cipher devAddr F data
  have hHElen : (H ++ E).length = 9 + dataLength := by
    rw [List.length_append, hHlen, hElen, hdl]
  have hMlen : M.length = 4 := by
    rw [hM]; simp [calculateMic, hc]
  have hbyte : ∀ k, k < 9 →
      (sendData cipher cmac devAddr data dataLength F).frame.get? k =
        H.get? k := by
    intro k hk
    rw [hfr, List.get?_append (by rw [hHElen]; omega),
      List.get?_append (by rw [hHlen]; omega)]
  refine ⟨rfl, ?_, hbyte 0 (by omega), hbyte 1 (by omega), hbyte 2 (by omega),
    hbyte 3 (by omega), hbyte 4 (by omega), hbyte 5 (by omega),
    hbyte 6 (by omega), hbyte 7 (by omega), hbyte 8 (by omega), ?_, ?_⟩
  · rw [hfr, List.length_append, hHElen, hMlen]
  · intro j hj
    rw [hfr, List.get?_append (by rw [hHElen]; omega),
      List.get?_append_right (by rw [hHlen]; omega)]
    rw [hHlen, Nat.add_sub_cancel_left]
  · rw [hfr, List.drop_left' hHElen]

/-- C1 witness: the layout theorem instantiated at the address
`00 11 22 33`, payload `[0x01, 0x02]` and counter 5 (the spec's frame
test vector: total length `9 + 2 + 4 = 15`, bytes 6–7 = `0x05, 0x00`). -/
theorem C1_frame_layout_witness :
    (sendData (fun _ => List.replicate 16 0) (fun _ => List.replicate 16 7)
        [0x00, 0x11, 0x22, 0x33] [0x01, 0x02] 2 5).lora_pkt_len =
      9 + 2 + 4 ∧
    (sendData (fun _ => List.replicate 16 0) (fun _ => List.replicate 16 7)
        [0x00, 0x11, 0x22, 0x33] [0x01, 0x02] 2 5).frame.get? 6 =
      some (5 &&& 0xFF) ∧
    (sendData (fun _ => List.replicate 16 0) (fun _ => List.replicate 16 7)
        [0x00, 0x11, 0x22, 0x33] [0x01, 0x02] 2 5).frame.get? 7 =
      some ((5 >>> 8) &&& 0xFF) := by
  have h := C1_frame_layout (fun _ => List.replicate 16 0)
    (fun _ => List.replicate 16 7) [0x00, 0x11, 0x22, 0x33] [0x01, 0x02] 2 5
    (by decide) (by decide) (fun m => List.length_replicate 16 7)
  exact ⟨h.1, h.2.2.2.2.2.2.2.2.1, h.2.2.2.2.2.2.2.2.2.1⟩

end TinyLora

namespace TinyLora

/-- C4 counterexample: a 52-byte payload makes the total frame size
`9 + 52 + 4 = 65 > 64`, yet `send_data` raises no error and produces a
complete 65-byte frame which it hands to `send_packet` — there is no
`PayloadTooLarge` rejection anywhere in the code. -/
theorem C4_oversize_rejection_cex :
    (sendData (fun _ => List.replicate 16 0) (fun _ => List.replicate 16 7)
        [0x00, 0x11, 0x22, 0x33] (List.replicate 52 0) 52 0).lora_pkt_len =
      65 ∧
    (sendData (fun _ => List.replicate 16 0) (fun _ => List.replicate 16 7)
        [0x00, 0x11, 0x22, 0x33] (List.replicate 52 0) 52 0).frame.length =
      65 ∧
    64 < 65 := by
  refine ⟨rfl, ?_, by omega⟩
  decide

/-- C4 amended: `send_data` performs no FIFO-capacity check — for every
payload, including those for which `9 + N + 4` exceeds the 64-byte FIFO,
it assembles the full frame of length `9 + N + 4` and passes it to
`send_packet` for transmission. -/
theorem C4_amended_no_size_check (cipher cmac : List Nat → List Nat)
    (devAddr data : List Nat) (dataLength F : Nat)
    (hdl : dataLength = data.length) (hc : ∀ m, (cmac m).length = 16) :
    (sendData cipher cmac devAddr data dataLength F).lora_pkt_len =
        9 + dataLength + 4 ∧
    (sendData cipher cmac devAddr data dataLength F).frame.length =
        9 + dataLength + 4 := by
  have hfr := sendData_frame_eq cipher cmac devAddr data dataLength F hdl hc
  refine ⟨rfl, ?_⟩
  rw [hfr, List.length_append, List.length_append,
    ksEncrypt_length cipher devAddr F data, ← hdl]
  simp [calculateMic, hc, loraPktHeader]

/-- C4 amended witness: the no-size-check theorem instantiated at a
52-byte payload (frame size 65, over the FIFO capacity). -/
theorem C4_amended_no_size_check_witness :
    (sendData (fun _ => List.replicate 16 0) (fun _ => List.replicate 16 7)
        [0x00, 0x11, 0x22, 0x33] (List.replicate 52 0) 52 0).lora_pkt_len =
      9 + 52 + 4 ∧
    (sendData (fun _ => List.replicate 16 0) (fun _ => List.replicate 16 7)
        [0x00, 0x11, 0x22, 0x33] (List.replicate 52 0) 52 0).frame.length =
      9 + 52 + 4 :=
  C4_amended_no_size_check (fun _ => List.replicate 16 0)
    (fun _ => List.replicate 16 7) [0x00, 0x11, 0x22, 0x33]
    (List.replicate 52 0) 52 0 (by decide) (fun m => List.length_replicate 16 7)

end TinyLora

namespace TinyLora

/-- A list ending in two explicit elements has the second as its last
element. -/
theorem getLast_of_two (l : List (Nat × Nat)) (a b : Nat × Nat) :
    (l ++ [a, b]).getLast? = some b := by
  rw [show l ++ [a, b] = (l ++ [a]) ++ [b] by simp, List.getLast?_concat]

/-- C3: whenever `send_packet` returns (normally or with the timeout
error), the last register write of the call is the operating-mode
register set to Sleep — the Sleep transition follows the TxDone poll
unconditionally — and the `SendTimeout` error is raised exactly when
the poll exited because the timeout elapsed rather than because the
transmit-complete signal was observed. -/
theorem C3_sleep_before_return (channel : Option Nat)
    (frequencies : List (Nat × Nat × Nat)) (rfm : Nat × Nat × Nat)
    (sf bw modemcfg txRandom : Nat) (lora_packet : List Nat)
    (packet_length : Nat) (irq elapsed : Nat → Bool) (fuel : Nat)
    (r : SendPacketResult)
    (h : sendPacket channel frequencies rfm sf bw modemcfg txRandom
      lora_packet packet_length irq elapsed fuel = some r) :
    r.writes ≠ [] ∧
    r.writes.getLast? = some (REG_OPERATING_MODE, MODE_SLEEP) ∧
    (r.timedOut = true ↔ pollTxDone irq elapsed fuel 0 = some true) := by
  cases hsel : selectChannel channel frequencies rfm txRandom with
  | none => simp [sendPacket, hsel] at h
  | some tri =>
    obtain ⟨msb, mid, lsb⟩ := tri
    by_cases hlen : packet_length ≤ lora_packet.length
    · cases hp : pollTxDone irq elapsed fuel 0 with
      | none => simp [sendPacket, hsel, hlen, hp] at h
      | some t =>
        simp only [sendPacket, hsel, if_pos hlen, hp,
          Option.some.injEq] at h
        subst h
        refine ⟨by simp, ?_, ?_⟩
        · exact getLast_of_two _ _ _
        · cases t <;> simp

    · simp [sendPacket, hsel, hlen] at h

/-- C3 witness: a send in fixed-channel mode with an empty packet and a
TxDone signal present on the first poll; the write trace ends with the
Sleep-mode write and no timeout error is raised. -/
theorem C3_sleep_before_return_witness :
    (SendPacketResult.mk
      [(MODE_STDBY, 0x81), (0x40, 0x40), (REG_FRF_MSB, 1), (REG_FRF_MID, 2),
       (REG_FRF_LSB, 3), (REG_FEI_LSB, 4), (REG_FEI_MSB, 5),
       (REG_MODEM_CONFIG, 6), (REG_PAYLOAD_LENGTH, 0),
       (REG_FIFO_POINTER, REG_FIFO_BASE_ADDR), (REG_OPERATING_MODE, MODE_TX),
       (REG_OPERATING_MODE, MODE_SLEEP)] false).writes ≠ [] ∧
    (SendPacketResult.mk
      [(MODE_STDBY, 0x81), (0x40, 0x40), (REG_FRF_MSB, 1), (REG_FRF_MID, 2),
       (REG_FRF_LSB, 3), (REG_FEI_LSB, 4), (REG_FEI_MSB, 5),
       (REG_MODEM_CONFIG, 6), (REG_PAYLOAD_LENGTH, 0),
       (REG_FIFO_POINTER, REG_FIFO_BASE_ADDR), (REG_OPERATING_MODE, MODE_TX),
       (REG_OPERATING_MODE, MODE_SLEEP)] false).writes.getLast? =
      some (REG_OPERATING_MODE, MODE_SLEEP) ∧
    ((SendPacketResult.mk
      [(MODE_STDBY, 0x81), (0x40, 0x40), (REG_FRF_MSB, 1), (REG_FRF_MID, 2),
       (REG_FRF_LSB, 3), (REG_FEI_LSB, 4), (REG_FEI_MSB, 5),
       (REG_MODEM_CONFIG, 6), (REG_PAYLOAD_LENGTH, 0),
       (REG_FIFO_POINTER, REG_FIFO_BASE_ADDR), (REG_OPERATING_MODE, MODE_TX),
       (REG_OPERATING_MODE, MODE_SLEEP)] false).timedOut = true ↔
      pollTxDone (fun _ => true) (fun _ => false) 1 0 = some true) :=
  C3_sleep_before_return (some 0) [] (1, 2, 3) 4 5 6 0 [] 0
    (fun _ => true) (fun _ => false) 1 _ rfl

/-- An unsuccessful assoc-list lookup means the key is absent. -/
theorem lookupRate_none_iff (l : List (String × (Nat × Nat × Nat)))
    (name : String) :
    lookupRate l name = none ↔ name ∉ l.map Prod.fst := by
  induction l with
  | nil => simp [lookupRate]
  | cons p rest ih =>
    obtain ⟨k, v⟩ := p
    by_cases hk : k = name
    · subst hk; simp [lookupRate]
    · have hne : ¬ name = k := fun he => hk he.symm
      simp only [lookupRate, if_neg hk, ih, List.map_cons, List.mem_cons]
      tauto

/-- A successful assoc-list lookup returns a pair of the list. -/
theorem lookupRate_some_mem (l : List (String × (Nat × Nat × Nat)))
    (name : String) (t : Nat × Nat × Nat) :
    lookupRate l name = some t → (name, t) ∈ l := by
  induction l with
  | nil => simp [lookupRate]
  | cons p rest ih =>
    obtain ⟨k, v⟩ := p
    by_cases hk : k = name
    · subst hk
      simp only [lookupRate]
      rw [if_pos trivial]
      intro h
      injection h with h
      subst h
      exact List.mem_cons_self _ _
    · simp only [lookupRate]
      rw [if_neg hk]
      intro h
      exact List.mem_cons_of_mem _ (ih h)

/-- C5: for a datarate name absent from the static profile table,
`set_datarate` raises `UnsupportedDatarate` and leaves the three
previously configured register values unchanged (no partial mutation);
for a name present in the table it sets all three registers to the
table's triple. -/
theorem C5_datarate_lookup (sf bw modemcfg : Nat) (datarate : String) :
    (datarate ∉ dataRates.map Prod.fst ∧
      setDatarate sf bw modemcfg datarate = ((sf, bw, modemcfg), true)) ∨
    (∃ t, (datarate, t) ∈ dataRates ∧
      setDatarate sf bw modemcfg datarate = (t, false)) := by
  cases hl : lookupRate dataRates datarate with
  | none =>
    left
    exact ⟨(lookupRate_none_iff dataRates datarate).mp hl,
      by simp [setDatarate, hl]⟩
  | some t =>
    right
    exact ⟨t, lookupRate_some_mem _ _ _ hl, by simp [setDatarate, hl]⟩

/-- C8: a bus read transaction sends the register address with its high
bit cleared (`address & 0x7F`), and a bus write transaction sends the
address with its high bit set (`address | 0x80`) followed by the whole
data byte. -/
theorem C8_register_protocol (address val : Nat) :
    readTransactionAddr address = address &&& 0x7F ∧
    Nat.testBit (readTransactionAddr address) 7 = false ∧
    writeTransaction address val = [address ||| 0x80, val] ∧
    Nat.testBit (address ||| 0x80) 7 = true := by
  refine ⟨rfl, ?_, rfl, ?_⟩
  · have h7 : Nat.testBit 0x7F 7 = false := by decide
    rw [readTransactionAddr, Nat.testBit_and, h7, Bool.and_false]
  · have h8 : Nat.testBit 0x80 7 = true := by decide
    rw [Nat.testBit_or, h8, Bool.or_true]

end TinyLora

namespace TinyLora

/-- C6 counterexample: the region string `"USA"` is outside the
supported set `{US, AS, AU, EU, CN}`, yet construction succeeds and
selects the US frequency plan, because the source tests
`"US" in ttn_config.country` — substring containment, not equality. -/
theorem C6_region_cex :
    ttnInit "USA" none = some ⟨Region.us, none, 0⟩ ∧
    "USA" ∉ (["US", "AS", "AU", "EU", "CN"] : List String) := by
  constructor
  · decide

  · decide

/-- C6 amended: construction selects a frequency plan exactly when the
region string contains `"US"` as a substring or equals one of `AS`,
`AU`, `EU`, `CN`; any other string fails with `UnsupportedRegion`
before any channel or frame state is configured (no `InitState` is
produced). -/
theorem C6_amended_region (c : String) (ch : Option Nat) :
    (ttnInit c ch).isSome = true ↔
      ("US".data <:+: c.data ∨ c = "AS" ∨ c = "AU" ∨ c = "EU" ∨
        c = "CN") := by
  unfold ttnInit selectRegion
  split_ifs with h1 h2 h3 h4 h5 <;> simp_all

/-- C7 counterexample: a region table providing one channel satisfies
the spec's "at least one channel", yet the pseudo-random draw 7 (a
legal result of `randint(0, 7)`) indexes out of the table's bounds and
the lookup fails instead of programming a table entry. -/
theorem C7_channel_cex :
    0 < ([((1 : Nat), (2 : Nat), (3 : Nat))] :
        List (Nat × Nat × Nat)).length ∧
    7 ≤ 7 ∧
    selectChannel none [((1 : Nat), (2 : Nat), (3 : Nat))] (0, 0, 0) 7 =
      none := by
  decide

/-- C7 amended: in multi-channel mode, provided the region table has at
least 8 channels (as all shipped regional tables do), every
pseudo-random draw in `0..7` selects a frequency triple that is an
entry of the table. -/
theorem C7_channel_in_bounds (frequencies : List (Nat × Nat × Nat))
    (current : Nat × Nat × Nat) (txRandom : Nat)
    (h8 : 8 ≤ frequencies.length) (ht : txRandom ≤ 7) :
    ∃ tri, selectChannel none frequencies current txRandom = some tri ∧
      tri ∈ frequencies := by
  have hlt : txRandom < frequencies.length := by omega
  refine ⟨frequencies.get ⟨txRandom, hlt⟩, ?_, List.get_mem _ _ _⟩
  simp [selectChannel, List.get?_eq_get hlt]

/-- C7 witness: an 8-entry table with the draw 7 selects the table's
last entry. -/
theorem C7_channel_in_bounds_witness :
    ∃ tri, selectChannel none
        [((1 : Nat), (1 : Nat), (1 : Nat)), (2, 2, 2), (3, 3, 3), (4, 4, 4),
         (5, 5, 5), (6, 6, 6), (7, 7, 7), (8, 8, 8)] (0, 0, 0) 7 =
        some tri ∧
      tri ∈ [((1 : Nat), (1 : Nat), (1 : Nat)), (2, 2, 2), (3, 3, 3),
        (4, 4, 4), (5, 5, 5), (6, 6, 6), (7, 7, 7), (8, 8, 8)] :=
  C7_channel_in_bounds
    [((1 : Nat), (1 : Nat), (1 : Nat)), (2, 2, 2), (3, 3, 3), (4, 4, 4),
     (5, 5, 5), (6, 6, 6), (7, 7, 7), (8, 8, 8)] (0, 0, 0) 7
    (by decide) (by decide)

end TinyLora
